import Mathlib

/-!
# VOID-Beta: the product list component (`frontend/src/App.jsx`)

A shallow embedding of the `App` component: its view state, the asynchronous
`fetchProducts` effect (as the trace of calls it performs for each way the network can
answer), the render function (as the tree of elements `App` returns, or the exception
it throws) and the mount / re-render cycle driven by `useEffect(..., [])`.
-/

namespace VoidBeta

/-! ## JavaScript values -/

/-- Values held by the variables of the component: what `JSON.parse` can produce, plus
`undefined` (the result of reading a property that is not there). An object lists its own
properties, each key once. Numbers are only ever carried from the response body into the
rendered tree, never computed on. -/
inductive JSValue where
  | undefined
  | null
  | bool (b : Bool)
  | number (n : ℚ)
  | string (s : String)
  | array (items : List JSValue)
  | object (props : List (String × JSValue))

/-- The `TypeError`s the render can throw. -/
inductive JSException where
  | notAFunction (callee : String)
  | cannotReadProperty (prop : String)
  deriving DecidableEq, Repr

/-- An `Error` object as seen by the `catch` block: only `error.message` is read. -/
structure JSError where
  message : String
  deriving DecidableEq, Repr

/-- The value of `v.k` when `v` is neither `null` nor `undefined`: the own property of an
object, `undefined` otherwise (none of `id`, `nombre`, `descripcion`, `precio`, `stock`
exists on a primitive or on an array). -/
def JSValue.field (v : JSValue) (k : String) : JSValue :=
  match v with
  | .object props => (props.lookup k).getD .undefined
  | _ => .undefined

/-- Property access `v.k`: throws on `null` and `undefined`. -/
def getProp (v : JSValue) (k : String) : Except JSException JSValue :=
  match v with
  | .undefined => .error (.cannotReadProperty k)
  | .null => .error (.cannotReadProperty k)
  | _ => .ok (v.field k)

/-! ## Rendered output -/

/-- The key of an element. React keeps as key the string conversion of the value given
in the `key` attribute; the conversion of a value to a string is left symbolic:
`ofValue v` stands for the string obtained from `v`. -/
inductive Key where
  | ofValue (v : JSValue)

/-- The key of an element built with the attribute `key` set to `v`: an element given
`undefined` has no key. -/
def keyOf (v : JSValue) : Option Key :=
  match v with
  | .undefined => none
  | .null => some (.ofValue .null)
  | .bool b => some (.ofValue (.bool b))
  | .number n => some (.ofValue (.number n))
  | .string s => some (.ofValue (.string s))
  | .array items => some (.ofValue (.array items))
  | .object props => some (.ofValue (.object props))

/-- The tree `App` returns: a child is either a JavaScript value written in the JSX
(literal text is a string value) or an element with its tag, `className`, `key` and
children. The array produced by `products.map` is spliced into the children list. -/
inductive ReactNode where
  | value (v : JSValue)
  | element (tag : String) (className : Option String) (key : Option Key)
      (children : List ReactNode)

mutual
/-- All nodes of a tree, the root first, in document order. -/
def ReactNode.subtrees : ReactNode → List ReactNode
  | .value v => [.value v]
  | .element tag cls key children =>
      .element tag cls key children :: subtreesList children
/-- All nodes of a list of trees. -/
def subtreesList : List ReactNode → List ReactNode
  | [] => []
  | c :: cs => c.subtrees ++ subtreesList cs
end

/-- The string children of a tree, in document order. -/
def ReactNode.texts (t : ReactNode) : List String :=
  t.subtrees.filterMap fun n =>
    match n with
    | .value (.string s) => some s
    | _ => none

/-- The product cards of a tree: its elements of class `product-card`. -/
def ReactNode.cards (t : ReactNode) : List ReactNode :=
  t.subtrees.filter fun n =>
    match n with
    | .element _ (some cls) _ _ => cls == "product-card"
    | _ => false

/-- The text `m` is shown somewhere in the tree: it occurs inside one of its string
children. -/
def ReactNode.containsText (t : ReactNode) (m : String) : Prop :=
  ∃ s ∈ t.texts, m.data <:+: s.data

/-! ## View state and render -/

/-- The three `useState` cells of `App`. `error` is `null` (here `none`) or a string. -/
structure ViewState where
  products : JSValue
  loading : Bool
  error : Option String

/-- The initial values given to `useState`: `[]`, `true`, `null`. -/
def ViewState.initial : ViewState :=
  { products := .array [], loading := true, error := none }

/-- JavaScript truthiness of the `error` cell, as tested by `if (error)`: `null` and the
empty string are falsy. -/
def isTruthy (error : Option String) : Bool :=
  match error with
  | none => false
  | some m => m != ""

/-- The `error` cell as a JavaScript value. -/
def errorValue (error : Option String) : JSValue :=
  match error with
  | none => .null
  | some m => .string m

/-- The callback of `products.map`: one card for one product. The children are
evaluated before the `key` attribute, which the compiled JSX passes last, so `nombre` is
the first property read. -/
def productCard (product : JSValue) : Except JSException ReactNode := do
  let nombre ← getProp product "nombre"
  let descripcion ← getProp product "descripcion"
  let precio ← getProp product "precio"
  let stock ← getProp product "stock"
  let id ← getProp product "id"
  pure (.element "div" (some "product-card") (keyOf id)
    [ .element "h2" none none [.value nombre],
      .element "p" none none [.value descripcion],
      .element "p" none none
        [.element "strong" none none [.value (.string "Precio: $"), .value precio]],
      .element "p" none none [.value (.string "Stock: "), .value stock] ])

/-- The loop of `Array.prototype.map`: the callback runs on each item in order and the
first exception aborts the loop. -/
def mapItems (f : JSValue → Except JSException ReactNode) :
    List JSValue → Except JSException (List ReactNode)
  | [] => .ok []
  | x :: xs =>
    match f x with
    | .error e => .error e
    | .ok c =>
      match mapItems f xs with
      | .error e => .error e
      | .ok cs => .ok (c :: cs)

/-- The call `products.map(f)`: only an array has a `map` method. -/
def callMap (products : JSValue) (f : JSValue → Except JSException ReactNode) :
    Except JSException (List ReactNode) :=
  match products with
  | .array items => mapItems f items
  | .undefined => .error (.cannotReadProperty "map")
  | .null => .error (.cannotReadProperty "map")
  | _ => .error (.notAFunction "products.map")

/-- The loading placeholder (line 38). -/
def loadingView : ReactNode :=
  .element "div" none none [.value (.string "Cargando productos, bancame un toque...")]

/-- The error message view (line 41) for the value of the `error` cell. -/
def errorView (error : JSValue) : ReactNode :=
  .element "div" none none [.value (.string "¡Uh, se rompió todo! Error: "), .value error]

/-- The title element (line 46). -/
def titleView : ReactNode :=
  .element "h1" none none [.value (.string "¡Mi Tienda de Pilcha!")]

/-- The product list view (lines 44-59) around the given cards. -/
def listView (cards : List ReactNode) : ReactNode :=
  .element "div" (some "App") none
    [titleView, .element "div" (some "product-list") none cards]

/-- The value `App` returns for a view state (lines 37-59), or the exception thrown
while computing it. -/
def App (s : ViewState) : Except JSException ReactNode :=
  if s.loading then .ok loadingView
  else if isTruthy s.error then .ok (errorView (errorValue s.error))
  else
    match callMap s.products productCard with
    | .error e => .error e
    | .ok cards => .ok (listView cards)

/-! ## The fetch attempt -/

/-- The endpoint requested on line 19. -/
def productsUrl : String := "http://127.0.0.1:8000/api/products/"

/-- The message of the `Error` thrown on line 22. -/
def badResponseMessage : String := "La respuesta del servidor no fue buena, ¡rajemos!"

/-- A response the `fetch` promise resolved with: its status code and what
`response.json()` would settle to (a rejection, or the parsed body). -/
structure Response where
  status : Nat
  json : Except JSError JSValue

/-- Modelled from the spec: `response.ok` belongs to the browser's fetch interface, which
is not part of the repository; it holds when the status is in the 200-299 range. -/
def Response.ok (r : Response) : Bool :=
  200 ≤ r.status && r.status ≤ 299

/-- How the network answers the single `fetch` call: the promise rejects, or resolves
with a response. -/
inductive FetchResult where
  | rejected (e : JSError)
  | resolved (r : Response)

/-- The calls `fetchProducts` performs, in order. -/
inductive Event where
  | fetch (url : String)
  | readJson
  | setProducts (data : JSValue)
  | setError (message : String)
  | setLoading (b : Bool)

/-- The `try` block (lines 17-26): the calls it performs and how it completes. -/
def tryBlock (net : FetchResult) : List Event × Except JSError Unit :=
  match net with
  | .rejected e => ([.fetch productsUrl], .error e)
  | .resolved r =>
    if !r.ok then ([.fetch productsUrl], .error { message := badResponseMessage })
    else
      match r.json with
      | .error e => ([.fetch productsUrl, .readJson], .error e)
      | .ok data => ([.fetch productsUrl, .readJson, .setProducts data], .ok ())

/-- The `catch` block (lines 27-28), entered only when the `try` block threw. -/
def catchBlock (completion : Except JSError Unit) : List Event :=
  match completion with
  | .error e => [.setError e.message]
  | .ok _ => []

/-- The `finally` block (lines 29-31). -/
def finallyBlock : List Event := [.setLoading false]

/-- The function `fetchProducts` (lines 15-32): the trace of its calls for a given
answer of the network. -/
def fetchProducts (net : FetchResult) : List Event :=
  let t := tryBlock net
  t.1 ++ catchBlock t.2 ++ finallyBlock

/-- The effect of one call on the view state: the setters replace their cell. -/
def applyEvent (s : ViewState) (e : Event) : ViewState :=
  match e with
  | .fetch _ => s
  | .readJson => s
  | .setProducts data => { s with products := data }
  | .setError message => { s with error := some message }
  | .setLoading b => { s with loading := b }

/-- The view state after the first `k` calls of the fetch attempt. -/
def stateAfter (net : FetchResult) (k : Nat) : ViewState :=
  ((fetchProducts net).take k).foldl applyEvent ViewState.initial

/-- The view state once `fetchProducts` has finished. -/
def finalState (net : FetchResult) : ViewState :=
  (fetchProducts net).foldl applyEvent ViewState.initial

/-- The message with which the fetch attempt fails, if it fails: the `fetch` promise
rejects, the status is not in the success range, or `response.json()` rejects. -/
def attemptFailure (net : FetchResult) : Option String :=
  match net with
  | .rejected e => some e.message
  | .resolved r =>
    if r.ok then
      match r.json with
      | .error e => some e.message
      | .ok _ => none
    else some badResponseMessage

/-- The data received, if the attempt succeeds: a success status and a body that
parses. -/
def attemptData (net : FetchResult) : Option JSValue :=
  match net with
  | .rejected _ => none
  | .resolved r =>
    if r.ok then
      match r.json with
      | .error _ => none
      | .ok data => some data
    else none

/-- Whether a call is a call of `setLoading`. -/
def Event.isSetLoading (e : Event) : Bool :=
  match e with
  | .setLoading _ => true
  | _ => false

/-- Exactly one of three propositions holds. -/
def ExactlyOne (a b c : Prop) : Prop :=
  (a ∧ ¬b ∧ ¬c) ∨ (¬a ∧ b ∧ ¬c) ∨ (¬a ∧ ¬b ∧ c)

/-- Modelled from the spec: a product record of the data model (the backend that declares
it is not among the sources): an identifier, a name, a description, a numeric price and
an integer stock. -/
structure Product where
  id : JSValue
  nombre : String
  descripcion : String
  precio : ℚ
  stock : ℤ

/-- The JSON value `v` is a record of the product `p`: an object whose `id`, `nombre`,
`descripcion`, `precio` and `stock` properties hold the fields of `p` (it may have
further properties). -/
def IsRecordOf (v : JSValue) (p : Product) : Prop :=
  (∃ props, v = .object props) ∧
  v.field "id" = p.id ∧
  v.field "nombre" = .string p.nombre ∧
  v.field "descripcion" = .string p.descripcion ∧
  v.field "precio" = .number p.precio ∧
  v.field "stock" = .number p.stock

/-- The card of a product, as lines 50-55 build it. -/
def cardOf (p : Product) : ReactNode :=
  .element "div" (some "product-card") (keyOf p.id)
    [ .element "h2" none none [.value (.string p.nombre)],
      .element "p" none none [.value (.string p.descripcion)],
      .element "p" none none
        [.element "strong" none none [.value (.string "Precio: $"), .value (.number p.precio)]],
      .element "p" none none [.value (.string "Stock: "), .value (.number p.stock)] ]

/-! ## Mount and re-render -/

/-- Modelled from the spec: the scheduling of effects is done by the React library, which
is not part of the repository. An effect runs after the first render of a mount and after
a later render only when its dependency array differs from the previous one; the two
arrays are compared position by position (a dependency is represented by an identity
token). -/
def areHookInputsEqual (nextDeps prevDeps : List Nat) : Bool :=
  (nextDeps.zip prevDeps).all fun p => p.1 == p.2

/-- One mounted instance of `App`: its view state, the dependency array `useEffect`
recorded at the previous render (`none` before the first one), the GET requests issued so
far, the calls of started `fetchProducts` runs still to be performed, and what the last
render returned. -/
structure Mounted where
  state : ViewState
  effectDeps : Option (List Nat)
  requests : List String
  pending : List Event
  output : Except JSException ReactNode

/-- The dependency array passed to `useEffect` on line 35: `[]`. -/
def effectDependencies : List Nat := []

/-- The effect body (lines 15-34) starts `fetchProducts`: the function runs up to its
first `await`, so the `fetch` call is issued at once, and the rest of its trace is
performed when the network has answered. -/
def runEffect (net : FetchResult) (m : Mounted) : Mounted :=
  match fetchProducts net with
  | .fetch url :: rest =>
    { m with requests := m.requests ++ [url], pending := m.pending ++ rest }
  | trace => { m with pending := m.pending ++ trace }

/-- One render of the mounted instance: `App` computes its output from the current state
and `useEffect` (lines 14-35) runs the effect when React's dependency rule says so. -/
def renderPass (net : FetchResult) (m : Mounted) : Mounted :=
  let runs :=
    match m.effectDeps with
    | none => true
    | some prevDeps => !areHookInputsEqual effectDependencies prevDeps
  let rendered := { m with output := App m.state, effectDeps := some effectDependencies }
  if runs then runEffect net rendered else rendered

/-- Mounting: the first render, from the initial state. -/
def mount (net : FetchResult) : Mounted :=
  renderPass net
    { state := ViewState.initial, effectDeps := none, requests := [], pending := [],
      output := App ViewState.initial }

/-- What can happen to a mounted instance: the next pending call of `fetchProducts` is
performed, or some state setter is called. -/
inductive Action where
  | next
  | update (e : Event)

/-- A state change followed by the re-render it causes. -/
def setState (net : FetchResult) (m : Mounted) (e : Event) : Mounted :=
  renderPass net { m with state := applyEvent m.state e }

/-- One action on a mounted instance. A pending `fetch` issues a request, a pending setter
changes the state and re-renders. -/
def act (net : FetchResult) (m : Mounted) (a : Action) : Mounted :=
  match a with
  | .update e => setState net m e
  | .next =>
    match m.pending with
    | [] => m
    | .fetch url :: rest => { m with requests := m.requests ++ [url], pending := rest }
    | .readJson :: rest => { m with pending := rest }
    | e :: rest => setState net { m with pending := rest } e

/-- The mounted instance after a sequence of actions. -/
def run (net : FetchResult) (actions : List Action) : Mounted :=
  actions.foldl (act net) (mount net)

/-- What every render after the first one preserves: the recorded dependency array is
the empty one, one request has been issued, and no `fetch` call is pending. -/
def Settled (m : Mounted) : Prop :=
  m.effectDeps = some effectDependencies ∧ m.requests = [productsUrl] ∧
    ∀ url, Event.fetch url ∉ m.pending

/-! ## Auxiliary facts -/

theorem fetchProducts_rejected (e : JSError) :
    fetchProducts (.rejected e) =
      [.fetch productsUrl, .setError e.message, .setLoading false] := rfl

theorem fetchProducts_not_ok (r : Response) (h : r.ok = false) :
    fetchProducts (.resolved r) =
      [.fetch productsUrl, .setError badResponseMessage, .setLoading false] := by
  simp [fetchProducts, tryBlock, catchBlock, finallyBlock, h]

theorem fetchProducts_json_rejected (r : Response) (e : JSError) (h : r.ok = true)
    (hj : r.json = .error e) :
    fetchProducts (.resolved r) =
      [.fetch productsUrl, .readJson, .setError e.message, .setLoading false] := by
  simp [fetchProducts, tryBlock, catchBlock, finallyBlock, h, hj]

theorem fetchProducts_success (r : Response) (data : JSValue) (h : r.ok = true)
    (hj : r.json = .ok data) :
    fetchProducts (.resolved r) =
      [.fetch productsUrl, .readJson, .setProducts data, .setLoading false] := by
  simp [fetchProducts, tryBlock, catchBlock, finallyBlock, h, hj]

/-- The four shapes of the trace of `fetchProducts`. -/
theorem fetchProducts_cases (net : FetchResult) :
    (∃ m, fetchProducts net = [.fetch productsUrl, .setError m, .setLoading false]) ∨
    (∃ m, fetchProducts net =
      [.fetch productsUrl, .readJson, .setError m, .setLoading false]) ∨
    (∃ d, fetchProducts net =
      [.fetch productsUrl, .readJson, .setProducts d, .setLoading false]) := by
  cases net with
  | rejected e => exact .inl ⟨_, fetchProducts_rejected e⟩
  | resolved r =>
    cases h : r.ok with
    | false => exact .inl ⟨_, fetchProducts_not_ok r h⟩
    | true =>
      cases hj : r.json with
      | error e => exact .inr (.inl ⟨_, fetchProducts_json_rejected r e h hj⟩)
      | ok d => exact .inr (.inr ⟨_, fetchProducts_success r d h hj⟩)

theorem fetchProducts_head (net : FetchResult) :
    fetchProducts net = .fetch productsUrl :: (fetchProducts net).tail := by
  rcases fetchProducts_cases net with ⟨m, h⟩ | ⟨m, h⟩ | ⟨d, h⟩ <;> simp [h]

theorem runEffect_eq (net : FetchResult) (m : Mounted) :
    runEffect net m =
      { m with requests := m.requests ++ [productsUrl],
               pending := m.pending ++ (fetchProducts net).tail } := by
  unfold runEffect
  rw [fetchProducts_head net]
  simp

theorem mount_eq (net : FetchResult) :
    mount net =
      { state := ViewState.initial, effectDeps := some effectDependencies,
        requests := [productsUrl], pending := (fetchProducts net).tail,
        output := App ViewState.initial } := by
  simp [mount, renderPass, runEffect_eq]

theorem ok_eq_false_of_status (r : Response) (h : r.status < 200 ∨ 299 < r.status) :
    r.ok = false := by
  simp only [Response.ok, Bool.and_eq_false_iff, decide_eq_false_iff_not, not_le]
  exact h

theorem finalState_of_failure (net : FetchResult) (m : String)
    (h : fetchProducts net = [.fetch productsUrl, .setError m, .setLoading false] ∨
      fetchProducts net = [.fetch productsUrl, .readJson, .setError m, .setLoading false]) :
    finalState net = { products := .array [], loading := false, error := some m } := by
  rcases h with h | h <;> simp [finalState, h, applyEvent, ViewState.initial]

theorem App_of_error (products : JSValue) (m : String) (h : m ≠ "") :
    App { products := products, loading := false, error := some m } =
      .ok (errorView (.string m)) := by
  simp [App, isTruthy, h, errorValue]

theorem fetch_not_mem_tail (net : FetchResult) (url : String) :
    Event.fetch url ∉ (fetchProducts net).tail := by
  rcases fetchProducts_cases net with ⟨m, h⟩ | ⟨m, h⟩ | ⟨d, h⟩ <;> simp [h]

theorem settled_mount (net : FetchResult) : Settled (mount net) := by
  rw [mount_eq]
  exact ⟨rfl, rfl, fetch_not_mem_tail net⟩

theorem renderPass_of_settled (net : FetchResult) (m : Mounted)
    (h : m.effectDeps = some effectDependencies) :
    renderPass net m = { m with output := App m.state } := by
  cases m with
  | mk state deps requests pending output =>
    simp only at h
    subst h
    simp [renderPass, areHookInputsEqual, effectDependencies]

theorem settled_setState (net : FetchResult) (m : Mounted) (e : Event) (h : Settled m) :
    Settled (setState net m e) := by
  obtain ⟨hd, hr, hp⟩ := h
  unfold setState
  rw [renderPass_of_settled net _ (by exact hd)]
  exact ⟨hd, hr, hp⟩

theorem settled_act (net : FetchResult) (m : Mounted) (a : Action) (h : Settled m) :
    Settled (act net m a) := by
  cases a with
  | update e => exact settled_setState net m e h
  | next =>
    obtain ⟨hd, hr, hp⟩ := h
    unfold act
    cases hpend : m.pending with
    | nil => exact ⟨hd, hr, hp⟩
    | cons e rest =>
      have hrest : ∀ url, Event.fetch url ∉ rest := fun url hmem =>
        hp url (by rw [hpend]; exact List.mem_cons_of_mem _ hmem)
      cases e with
      | fetch url => exact absurd (by rw [hpend]; exact List.mem_cons_self _ _) (hp url)
      | readJson => exact ⟨hd, hr, hrest⟩
      | setProducts d => exact settled_setState net _ _ ⟨hd, hr, hrest⟩
      | setError msg => exact settled_setState net _ _ ⟨hd, hr, hrest⟩
      | setLoading b => exact settled_setState net _ _ ⟨hd, hr, hrest⟩

theorem settled_foldl (net : FetchResult) (actions : List Action) (m : Mounted)
    (h : Settled m) : Settled (actions.foldl (act net) m) := by
  induction actions generalizing m with
  | nil => exact h
  | cons a rest ih => exact ih _ (settled_act net m a h)

theorem productCard_of_record (v : JSValue) (p : Product) (h : IsRecordOf v p) :
    productCard v = .ok (cardOf p) := by
  obtain ⟨⟨props, hv⟩, hid, hn, hd, hp, hs⟩ := h
  subst hv
  simp only [productCard, getProp, bind, Except.bind, pure, Except.pure, hid, hn, hd, hp, hs,
    cardOf]

theorem mapItems_of_records (xs : List JSValue) (ps : List Product)
    (h : List.Forall₂ IsRecordOf xs ps) :
    mapItems productCard xs = .ok (ps.map cardOf) := by
  induction h with
  | nil => rfl
  | cons hhead _ ih => simp [mapItems, productCard_of_record _ _ hhead, ih]

theorem subtrees_cardOf (p : Product) :
    (cardOf p).subtrees =
      [ cardOf p,
        .element "h2" none none [.value (.string p.nombre)],
        .value (.string p.nombre),
        .element "p" none none [.value (.string p.descripcion)],
        .value (.string p.descripcion),
        .element "p" none none
          [.element "strong" none none [.value (.string "Precio: $"), .value (.number p.precio)]],
        .element "strong" none none [.value (.string "Precio: $"), .value (.number p.precio)],
        .value (.string "Precio: $"),
        .value (.number p.precio),
        .element "p" none none [.value (.string "Stock: "), .value (.number p.stock)],
        .value (.string "Stock: "),
        .value (.number p.stock) ] := rfl

theorem subtrees_listView (cards : List ReactNode) :
    (listView cards).subtrees =
      listView cards :: titleView :: .value (.string "¡Mi Tienda de Pilcha!") ::
        .element "div" (some "product-list") none cards :: subtreesList cards := by
  simp [listView, titleView, ReactNode.subtrees, subtreesList]

/-- The cards found in the list view of a list of products are the cards of the
products, in order. -/
theorem cards_listView (ps : List Product) :
    (listView (ps.map cardOf)).cards = ps.map cardOf := by
  unfold ReactNode.cards
  rw [subtrees_listView]
  have hrest : ∀ qs : List Product,
      (subtreesList (qs.map cardOf)).filter (fun n =>
        match n with
        | .element _ (some cls) _ _ => cls == "product-card"
        | _ => false) = qs.map cardOf := by
    intro qs
    induction qs with
    | nil => rfl
    | cons q qs ih =>
      simp only [List.map_cons, subtreesList, List.filter_append, ih, subtrees_cardOf]
      simp [List.filter, cardOf]
  simp only [List.filter_cons]
  rw [hrest]
  simp [listView, titleView]

/-- Neither the loading placeholder nor an error message view occurs in the list view
of a list of products. -/
theorem no_placeholder_in_listView (ps : List Product) :
    loadingView ∉ (listView (ps.map cardOf)).subtrees ∧
    ∀ m, errorView m ∉ (listView (ps.map cardOf)).subtrees := by
  have hrest : ∀ n ∈ subtreesList (ps.map cardOf),
      n ≠ loadingView ∧ ∀ m, n ≠ errorView m := by
    induction ps with
    | nil => intro n hn; simp [subtreesList] at hn
    | cons q qs ih =>
      intro n hn
      simp only [List.map_cons, subtreesList, List.mem_append] at hn
      rcases hn with hn | hn
      · rw [subtrees_cardOf] at hn
        simp only [List.mem_cons, List.mem_singleton, List.not_mem_nil, or_false] at hn
        rcases hn with h | h | h | h | h | h | h | h | h | h | h | h <;>
          subst h <;> simp [cardOf, loadingView, errorView]
      · exact ih n hn
  rw [subtrees_listView]
  constructor
  · intro hmem
    simp only [List.mem_cons] at hmem
    rcases hmem with h | h | h | h | h
    · simp [listView, loadingView] at h
    · simp [titleView, loadingView] at h
    · simp [loadingView] at h
    · simp [loadingView] at h
    · exact (hrest _ h).1 rfl
  · intro m hmem
    simp only [List.mem_cons] at hmem
    rcases hmem with h | h | h | h | h
    · simp [listView, errorView] at h
    · simp [titleView, errorView] at h
    · simp [errorView] at h
    · simp [errorView] at h
    · exact (hrest _ h).2 m rfl

/-- The string children of the list view of a list of products: the title, then for
each product its name, its description and the two fixed labels. -/
theorem texts_listView (ps : List Product) :
    (listView (ps.map cardOf)).texts =
      "¡Mi Tienda de Pilcha!" ::
        ps.flatMap (fun p => [p.nombre, p.descripcion, "Precio: $", "Stock: "]) := by
  unfold ReactNode.texts
  rw [subtrees_listView]
  have hrest : ∀ qs : List Product,
      (subtreesList (qs.map cardOf)).filterMap (fun n =>
        match n with
        | .value (.string s) => some s
        | _ => none) =
        qs.flatMap (fun p => [p.nombre, p.descripcion, "Precio: $", "Stock: "]) := by
    intro qs
    induction qs with
    | nil => rfl
    | cons q qs ih =>
      simp only [List.map_cons, subtreesList, List.filterMap_append, ih, subtrees_cardOf,
        List.flatMap_cons]
      simp [List.filterMap, cardOf]
  simp only [List.filterMap_cons]
  rw [hrest]
  simp [listView, titleView]

/-- None of the fixed texts of the list view contains the loading text or the text of
the error message view: they are shorter. -/
theorem fixed_text_free (s : String)
    (hs : s = "¡Mi Tienda de Pilcha!" ∨ s = "Precio: $" ∨ s = "Stock: ") :
    ¬ "Cargando productos, bancame un toque...".data <:+: s.data ∧
    ¬ "¡Uh, se rompió todo! Error: ".data <:+: s.data := by
  rcases hs with h | h | h <;> subst h <;> constructor <;> intro hin <;>
    exact absurd hin.length_le (by decide)

/-! ## Render rules -/

/-- C6: whenever `loading` is true, whatever `products` and `error` hold, `App` returns
the loading placeholder and nothing else; in particular the initial state renders the
loading placeholder, and so does the first render of a mount whatever the network will
answer. -/
theorem App_loading_branch :
    (∀ (products : JSValue) (error : Option String),
      App { products := products, loading := true, error := error } = .ok loadingView) ∧
    App ViewState.initial = .ok loadingView ∧
    (∀ net : FetchResult, (mount net).state = ViewState.initial ∧
      (mount net).output = .ok loadingView) ∧
    loadingView.texts = ["Cargando productos, bancame un toque..."] ∧
    loadingView.cards = [] := by
  refine ⟨fun _ _ => rfl, rfl, fun net => ?_, rfl, rfl⟩
  rw [mount_eq]
  exact ⟨rfl, rfl⟩

/-- C1 (the code at the failing input): when the fetch attempt fails with an error whose
message is the empty string, the state reached has `loading = false` and `error` set to
the empty string, and `App` does not return the error message view for it: the test
`if (error)` is false and the title with the (empty) product list is returned. -/
theorem App_error_branch_empty_string :
    finalState (.rejected { message := "" }) =
      { products := .array [], loading := false, error := some "" } ∧
    App { products := .array [], loading := false, error := some "" } = .ok (listView []) ∧
    App { products := .array [], loading := false, error := some "" } ≠
      .ok (errorView (.string "")) ∧
    titleView ∈ (listView []).subtrees := by
  refine ⟨rfl, rfl, ?_, ?_⟩
  · intro h
    have h2 : listView [] = errorView (.string "") := Except.ok.inj h
    simp [listView, errorView] at h2
  · have hs : (listView []).subtrees =
        [listView [], titleView, .value (.string "¡Mi Tienda de Pilcha!"),
         .element "div" (some "product-list") none []] := rfl
    rw [hs]
    exact List.mem_cons_of_mem _ (List.mem_cons_self _ _)

/-- The error branch on a non-empty error string: with `loading = false`, whatever
`products` holds, `App` returns the error message view only: the fixed text followed by
the error string, with no title and no product card. -/
theorem App_error_branch (products : JSValue) (m : String) (h : m ≠ "") :
    ∃ t, App { products := products, loading := false, error := some m } = .ok t ∧
      t = .element "div" none none
            [.value (.string "¡Uh, se rompió todo! Error: "), .value (.string m)] ∧
      t.texts = ["¡Uh, se rompió todo! Error: ", m] ∧
      t.cards = [] ∧
      titleView ∉ t.subtrees := by
  refine ⟨errorView (.string m), ?_, rfl, rfl, rfl, ?_⟩
  · simp [App, isTruthy, h, errorValue]
  · simp [errorView, titleView, ReactNode.subtrees, subtreesList]

/-! ## Success path -/

/-- C4 (as stated, refuted): a response with status 200 whose body is one product record
named like the loading placeholder: the rendered list contains the loading text, as the
name shown on the card. -/
theorem success_output_shows_name_verbatim :
    IsRecordOf
      (.object [("id", .number 1),
        ("nombre", .string "Cargando productos, bancame un toque..."),
        ("descripcion", .string "Algodón"), ("precio", .number 1500),
        ("stock", .number ((10 : ℤ) : ℚ))])
      { id := .number 1, nombre := "Cargando productos, bancame un toque...",
        descripcion := "Algodón", precio := 1500, stock := 10 } ∧
    ∃ t, App (finalState (.resolved { status := 200, json := .ok (.array
        [.object [("id", .number 1),
          ("nombre", .string "Cargando productos, bancame un toque..."),
          ("descripcion", .string "Algodón"), ("precio", .number 1500),
          ("stock", .number ((10 : ℤ) : ℚ))]]) })) = .ok t ∧
      t.texts = ["¡Mi Tienda de Pilcha!", "Cargando productos, bancame un toque...",
        "Algodón", "Precio: $", "Stock: "] ∧
      t.cards.length = 1 ∧
      t.containsText "Cargando productos, bancame un toque..." := by
  refine ⟨⟨⟨_, rfl⟩, rfl, rfl, rfl, rfl, rfl⟩,
    listView [cardOf (Product.mk (.number 1) "Cargando productos, bancame un toque..."
      "Algodón" 1500 10)], rfl, rfl, rfl, ?_⟩
  exact ⟨"Cargando productos, bancame un toque...",
    List.mem_cons_of_mem _ (List.mem_cons_self _ _), List.infix_refl _⟩

/-- C4 (amended): for every response with a status in 200-299 whose body parses to an
array of product records (possibly empty), once `fetchProducts` has finished `App`
returns the title followed by the list of exactly one card per product, in the order
received; the card of a product shows its `nombre`, its `descripcion`, `Precio: $`
followed by its `precio` and `Stock: ` followed by its `stock`. The output holds neither
the loading placeholder nor an error message view, and a text of the output contains the
loading text or the error text only when it is the `nombre` or the `descripcion` of a
product that contains it. -/
theorem success_renders_cards (r : Response) (xs : List JSValue) (ps : List Product)
    (hstatus : 200 ≤ r.status ∧ r.status ≤ 299) (hjson : r.json = .ok (.array xs))
    (hrec : List.Forall₂ IsRecordOf xs ps) :
    finalState (.resolved r) = { products := .array xs, loading := false, error := none } ∧
    ∃ t cards, App (finalState (.resolved r)) = .ok t ∧
      t = .element "div" (some "App") none
            [ .element "h1" none none [.value (.string "¡Mi Tienda de Pilcha!")],
              .element "div" (some "product-list") none cards ] ∧
      cards = ps.map (fun p =>
        .element "div" (some "product-card") (keyOf p.id)
          [ .element "h2" none none [.value (.string p.nombre)],
            .element "p" none none [.value (.string p.descripcion)],
            .element "p" none none
              [.element "strong" none none
                [.value (.string "Precio: $"), .value (.number p.precio)]],
            .element "p" none none [.value (.string "Stock: "), .value (.number p.stock)] ]) ∧
      t.cards = cards ∧
      cards.length = xs.length ∧
      loadingView ∉ t.subtrees ∧
      (∀ m, errorView m ∉ t.subtrees) ∧
      t.texts = "¡Mi Tienda de Pilcha!" ::
        ps.flatMap (fun p => [p.nombre, p.descripcion, "Precio: $", "Stock: "]) ∧
      (∀ s ∈ t.texts,
        ("Cargando productos, bancame un toque...".data <:+: s.data ∨
          "¡Uh, se rompió todo! Error: ".data <:+: s.data) →
        ∃ p ∈ ps, s = p.nombre ∨ s = p.descripcion) ∧
      ((∀ p ∈ ps,
          ¬ "Cargando productos, bancame un toque...".data <:+: p.nombre.data ∧
          ¬ "Cargando productos, bancame un toque...".data <:+: p.descripcion.data ∧
          ¬ "¡Uh, se rompió todo! Error: ".data <:+: p.nombre.data ∧
          ¬ "¡Uh, se rompió todo! Error: ".data <:+: p.descripcion.data) →
        ¬ t.containsText "Cargando productos, bancame un toque..." ∧
        ¬ t.containsText "¡Uh, se rompió todo! Error: ") := by
  have hok : r.ok = true := by
    simp [Response.ok, hstatus.1, hstatus.2]
  have hfin : finalState (.resolved r) =
      { products := .array xs, loading := false, error := none } := by
    simp [finalState, fetchProducts_success r _ hok hjson, applyEvent, ViewState.initial]
  have hsrc : ∀ s ∈ (listView (ps.map cardOf)).texts,
      ("Cargando productos, bancame un toque...".data <:+: s.data ∨
        "¡Uh, se rompió todo! Error: ".data <:+: s.data) →
      ∃ p ∈ ps, s = p.nombre ∨ s = p.descripcion := by
    intro s hs hin
    rw [texts_listView] at hs
    rcases List.mem_cons.mp hs with h | h
    · exact absurd hin (not_or.mpr (fixed_text_free s (.inl h)))
    · obtain ⟨p, hp, hsp⟩ := List.mem_flatMap.mp h
      simp only [List.mem_cons, List.mem_singleton, List.not_mem_nil, or_false] at hsp
      rcases hsp with h | h | h | h
      · exact ⟨p, hp, .inl h⟩
      · exact ⟨p, hp, .inr h⟩
      · exact absurd hin (not_or.mpr (fixed_text_free s (.inr (.inl h))))
      · exact absurd hin (not_or.mpr (fixed_text_free s (.inr (.inr h))))
  refine ⟨hfin, listView (ps.map cardOf), ps.map cardOf, ?_, rfl, rfl, cards_listView ps, ?_,
    (no_placeholder_in_listView ps).1, (no_placeholder_in_listView ps).2,
    texts_listView ps, hsrc, ?_⟩
  · rw [hfin]
    simp [App, isTruthy, callMap, mapItems_of_records xs ps hrec]
  · rw [List.length_map]
    exact hrec.length_eq.symm
  · intro hfree
    constructor
    · rintro ⟨s, hs, hin⟩
      obtain ⟨p, hp, h | h⟩ := hsrc s hs (.inl hin)
      · exact (hfree p hp).1 (h ▸ hin)
      · exact (hfree p hp).2.1 (h ▸ hin)
    · rintro ⟨s, hs, hin⟩
      obtain ⟨p, hp, h | h⟩ := hsrc s hs (.inr hin)
      · exact (hfree p hp).2.2.1 (h ▸ hin)
      · exact (hfree p hp).2.2.2 (h ▸ hin)

theorem success_renders_cards_witness :
    ∃ t cards, App (finalState (.resolved { status := 200, json := .ok (.array
        [.object [("id", .number 1), ("nombre", .string "Remera"),
          ("descripcion", .string "Algodón"), ("precio", .number 1500),
          ("stock", .number ((10 : ℤ) : ℚ))]]) })) = .ok t ∧
      t = .element "div" (some "App") none
            [ .element "h1" none none [.value (.string "¡Mi Tienda de Pilcha!")],
              .element "div" (some "product-list") none cards ] ∧
      cards =
        [ .element "div" (some "product-card") (some (.ofValue (.number 1)))
          [ .element "h2" none none [.value (.string "Remera")],
            .element "p" none none [.value (.string "Algodón")],
            .element "p" none none
              [.element "strong" none none
                [.value (.string "Precio: $"), .value (.number 1500)]],
            .element "p" none none
              [.value (.string "Stock: "), .value (.number ((10 : ℤ) : ℚ))] ] ] ∧
      t.cards = cards ∧
      cards.length = 1 ∧
      loadingView ∉ t.subtrees ∧
      (∀ m, errorView m ∉ t.subtrees) ∧
      t.texts = ["¡Mi Tienda de Pilcha!", "Remera", "Algodón", "Precio: $", "Stock: "] :=
  have h := (success_renders_cards
    { status := 200, json := .ok (.array
        [.object [("id", .number 1), ("nombre", .string "Remera"),
          ("descripcion", .string "Algodón"), ("precio", .number 1500),
          ("stock", .number ((10 : ℤ) : ℚ))]]) }
    [.object [("id", .number 1), ("nombre", .string "Remera"),
          ("descripcion", .string "Algodón"), ("precio", .number 1500),
          ("stock", .number ((10 : ℤ) : ℚ))]]
    [{ id := .number 1, nombre := "Remera", descripcion := "Algodón", precio := 1500,
       stock := 10 }]
    (by decide) rfl
    (.cons ⟨⟨_, rfl⟩, rfl, rfl, rfl, rfl, rfl⟩ .nil)).2
  let ⟨t, cards, h1, h2, h3, h4, h5, h6, h7, h8, _⟩ := h
  ⟨t, cards, h1, h2, h3, h4, h5, h6, h7, h8⟩

/-! ## Failure paths -/

/-- C2: for every response whose status is outside 200-299, whatever its status and
body, `fetchProducts` ends with `error` equal to the fixed literal, never calls
`response.json()` nor `setProducts`, and `products` keeps its initial empty value all
along. -/
theorem fetchProducts_bad_status (r : Response) (h : r.status < 200 ∨ 299 < r.status) :
    fetchProducts (.resolved r) =
      [.fetch productsUrl,
       .setError "La respuesta del servidor no fue buena, ¡rajemos!",
       .setLoading false] ∧
    Event.readJson ∉ fetchProducts (.resolved r) ∧
    (∀ d, Event.setProducts d ∉ fetchProducts (.resolved r)) ∧
    (∀ k, (stateAfter (.resolved r) k).products = .array []) ∧
    finalState (.resolved r) =
      { products := .array [], loading := false,
        error := some "La respuesta del servidor no fue buena, ¡rajemos!" } := by
  have hok := ok_eq_false_of_status r h
  have htr := fetchProducts_not_ok r hok
  refine ⟨htr, ?_, ?_, ?_, finalState_of_failure _ _ (.inl htr)⟩
  · simp [htr]
  · simp [htr]
  · intro k
    rcases k with _ | _ | _ | _ | k <;>
      simp [stateAfter, htr, applyEvent, ViewState.initial]

theorem fetchProducts_bad_status_witness :
    fetchProducts (.resolved { status := 404, json := .ok (.array [.null]) }) =
      [.fetch productsUrl,
       .setError "La respuesta del servidor no fue buena, ¡rajemos!",
       .setLoading false] ∧
    Event.readJson ∉ fetchProducts (.resolved { status := 404, json := .ok (.array [.null]) }) ∧
    (∀ d, Event.setProducts d ∉
      fetchProducts (.resolved { status := 404, json := .ok (.array [.null]) })) ∧
    (∀ k, (stateAfter (.resolved { status := 404, json := .ok (.array [.null]) }) k).products
      = .array []) ∧
    finalState (.resolved { status := 404, json := .ok (.array [.null]) }) =
      { products := .array [], loading := false,
        error := some "La respuesta del servidor no fue buena, ¡rajemos!" } :=
  fetchProducts_bad_status { status := 404, json := .ok (.array [.null]) }
    (Or.inr (by decide))

/-- C3 (as stated, refuted): for a response with status 500 the rendered output is not
exactly the fixed literal: its text is the prefix `¡Uh, se rompió todo! Error: ` followed
by the literal. -/
theorem http_failure_500_not_literal_only :
    App (finalState (.resolved { status := 500, json := .ok (.array []) })) =
      .ok (errorView (.string badResponseMessage)) ∧
    (errorView (.string badResponseMessage)).texts =
      ["¡Uh, se rompió todo! Error: ", badResponseMessage] ∧
    (errorView (.string badResponseMessage)).texts ≠ [badResponseMessage] ∧
    String.join (errorView (.string badResponseMessage)).texts ≠ badResponseMessage := by
  refine ⟨rfl, rfl, ?_, ?_⟩
  · intro h
    have h2 : ["¡Uh, se rompió todo! Error: ", badResponseMessage] = [badResponseMessage] := h
    simp at h2
  · have h2 : String.join (errorView (.string badResponseMessage)).texts =
        "¡Uh, se rompió todo! Error: La respuesta del servidor no fue buena, ¡rajemos!" := by
      decide
    rw [h2]
    decide

/-- C3 (amended): for every response with a status outside 200-299, after the fetch has
finished `App` returns exactly the error message view, whose text is the prefix
`¡Uh, se rompió todo! Error: ` followed by the fixed literal, with no product card. -/
theorem http_failure_renders_error_view (r : Response)
    (h : r.status < 200 ∨ 299 < r.status) :
    ∃ t, App (finalState (.resolved r)) = .ok t ∧
      t = .element "div" none none
            [.value (.string "¡Uh, se rompió todo! Error: "),
             .value (.string "La respuesta del servidor no fue buena, ¡rajemos!")] ∧
      t.texts = ["¡Uh, se rompió todo! Error: ",
                 "La respuesta del servidor no fue buena, ¡rajemos!"] ∧
      t.cards = [] := by
  have htr := fetchProducts_not_ok r (ok_eq_false_of_status r h)
  refine ⟨errorView (.string badResponseMessage), ?_, rfl, rfl, rfl⟩
  rw [finalState_of_failure _ _ (.inl htr)]
  exact App_of_error _ _ (by decide)

theorem http_failure_renders_error_view_witness :
    ∃ t, App (finalState (.resolved { status := 500, json := .error { message := "x" } }))
        = .ok t ∧
      t = .element "div" none none
            [.value (.string "¡Uh, se rompió todo! Error: "),
             .value (.string "La respuesta del servidor no fue buena, ¡rajemos!")] ∧
      t.texts = ["¡Uh, se rompió todo! Error: ",
                 "La respuesta del servidor no fue buena, ¡rajemos!"] ∧
      t.cards = [] :=
  http_failure_renders_error_view { status := 500, json := .error { message := "x" } }
    (Or.inr (by decide))

/-- C9: when the `fetch` promise or `response.json()` rejects with an error of message
`m`, the stored error is `m` verbatim, `products` is empty all along, and the rendered
output contains the text `m` and no product card. For a non-empty `m` the output is the
error message view; for the empty message it is the title with an empty list. -/
theorem rejection_message_shown (net : FetchResult) (e : JSError)
    (h : net = .rejected e ∨ ∃ r, net = .resolved r ∧ r.ok = true ∧ r.json = .error e) :
    (finalState net).error = some e.message ∧
    (finalState net).products = .array [] ∧
    (∀ k, (stateAfter net k).products = .array []) ∧
    ∃ t, App (finalState net) = .ok t ∧
      t.containsText e.message ∧
      t.cards = [] ∧
      (e.message ≠ "" → t = .element "div" none none
        [.value (.string "¡Uh, se rompió todo! Error: "), .value (.string e.message)]) ∧
      (e.message = "" → t = listView []) := by
  have htr : fetchProducts net = [.fetch productsUrl, .setError e.message, .setLoading false] ∨
      fetchProducts net =
        [.fetch productsUrl, .readJson, .setError e.message, .setLoading false] := by
    rcases h with h | ⟨r, h, hok, hj⟩
    · subst h; exact .inl (fetchProducts_rejected e)
    · subst h; exact .inr (fetchProducts_json_rejected r e hok hj)
  have hfin := finalState_of_failure net e.message htr
  refine ⟨by rw [hfin], by rw [hfin], ?_, ?_⟩
  · intro k
    rcases htr with htr | htr <;> rcases k with _ | _ | _ | _ | _ | k <;>
      simp [stateAfter, htr, applyEvent, ViewState.initial]
  · rw [hfin]
    by_cases hm : e.message = ""
    · refine ⟨listView [], ?_, ?_, rfl, fun hne => absurd hm hne, fun _ => rfl⟩
      · simp [App, isTruthy, hm, callMap, mapItems]
      · refine ⟨"¡Mi Tienda de Pilcha!", ?_, ?_⟩
        · have ht : (listView []).texts = ["¡Mi Tienda de Pilcha!"] := rfl
          rw [ht]
          exact List.mem_singleton_self _
        · rw [hm]
          exact List.nil_infix
    · refine ⟨errorView (.string e.message), App_of_error _ _ hm, ?_, rfl, fun _ => rfl,
        fun h0 => absurd h0 hm⟩
      refine ⟨e.message, ?_, List.infix_refl _⟩
      have ht : (errorView (.string e.message)).texts =
          ["¡Uh, se rompió todo! Error: ", e.message] := rfl
      rw [ht]
      exact List.mem_cons_of_mem _ (List.mem_singleton_self _)

theorem rejection_message_shown_witness :
    (finalState (.rejected { message := "Failed to fetch" })).error =
      some (JSError.mk "Failed to fetch").message ∧
    (finalState (.rejected { message := "Failed to fetch" })).products = .array [] ∧
    (∀ k, (stateAfter (.rejected { message := "Failed to fetch" }) k).products = .array []) ∧
    ∃ t, App (finalState (.rejected { message := "Failed to fetch" })) = .ok t ∧
      t.containsText (JSError.mk "Failed to fetch").message ∧
      t.cards = [] ∧
      ((JSError.mk "Failed to fetch").message ≠ "" → t = .element "div" none none
        [.value (.string "¡Uh, se rompió todo! Error: "),
         .value (.string (JSError.mk "Failed to fetch").message)]) ∧
      ((JSError.mk "Failed to fetch").message = "" → t = listView []) :=
  rejection_message_shown (.rejected { message := "Failed to fetch" })
    { message := "Failed to fetch" } (Or.inl rfl)

/-! ## The loading flag and the three-state invariant -/

/-- C5: for every outcome of the fetch attempt, `loading` is true initially and after
every call that is not the last one, and false once `fetchProducts` has finished;
`setLoading` is called exactly once, with `false`, as the last call of every trace. -/
theorem loading_cleared_exactly_once (net : FetchResult) :
    ViewState.initial.loading = true ∧
    (∀ k, k < (fetchProducts net).length → (stateAfter net k).loading = true) ∧
    (finalState net).loading = false ∧
    (fetchProducts net).countP Event.isSetLoading = 1 ∧
    (∀ b, Event.setLoading b ∈ fetchProducts net → b = false) ∧
    (fetchProducts net).getLast? = some (.setLoading false) := by
  rcases fetchProducts_cases net with ⟨m, h⟩ | ⟨m, h⟩ | ⟨d, h⟩
  all_goals
    refine ⟨rfl, ?_, ?_, ?_, ?_, ?_⟩
    · intro k hk
      rw [h] at hk
      simp only [List.length_cons, List.length_nil] at hk
      rcases k with _ | _ | _ | _ | k <;>
        first
          | omega
          | simp [stateAfter, h, applyEvent, ViewState.initial]
    · simp [finalState, h, applyEvent]
    · simp [h, List.countP_cons, Event.isSetLoading]
    · simp [h]
    · simp [h]

/-- C7: every view state reached from the initial state through the calls of the fetch
attempt is in exactly one of three situations: loading; not loading with an error set;
not loading, no error, and `products` holding the data received. No reachable state has
both an error set and a non-empty product list, and an error is set only to the message
of a failed attempt. -/
theorem three_state_invariant (net : FetchResult) (k : Nat) :
    ExactlyOne
      ((stateAfter net k).loading = true)
      ((stateAfter net k).loading = false ∧ (stateAfter net k).error ≠ none)
      ((stateAfter net k).loading = false ∧ (stateAfter net k).error = none ∧
        attemptData net = some (stateAfter net k).products) ∧
    ¬ ((stateAfter net k).error ≠ none ∧ (stateAfter net k).products ≠ .array []) ∧
    ((stateAfter net k).error ≠ none →
      attemptFailure net = (stateAfter net k).error ∧ attemptData net = none) := by
  cases net with
  | rejected e =>
    rcases k with _ | _ | _ | _ | k <;>
      simp [stateAfter, fetchProducts_rejected, applyEvent, ViewState.initial, ExactlyOne,
        attemptData, attemptFailure]
  | resolved r =>
    cases hok : r.ok with
    | false =>
      rcases k with _ | _ | _ | _ | k <;>
        simp [stateAfter, fetchProducts_not_ok r hok, applyEvent, ViewState.initial,
          ExactlyOne, attemptData, attemptFailure, hok]
    | true =>
      cases hj : r.json with
      | error e =>
        rcases k with _ | _ | _ | _ | _ | k <;>
          simp [stateAfter, fetchProducts_json_rejected r e hok hj, applyEvent,
            ViewState.initial, ExactlyOne, attemptData, attemptFailure, hok, hj]
      | ok d =>
        rcases k with _ | _ | _ | _ | _ | k <;>
          simp [stateAfter, fetchProducts_success r d hok hj, applyEvent,
            ViewState.initial, ExactlyOne, attemptData, attemptFailure, hok, hj]

/-! ## One request per mount -/

/-- C8: within one mount, whatever the network answers and whatever sequence of state
changes and re-renders follows, exactly one GET to the products endpoint has been
issued: the one of the first render. A re-render caused by a state setter leaves the
list of issued requests unchanged. -/
theorem fetch_issued_exactly_once (net : FetchResult) (actions : List Action) :
    (mount net).requests = ["http://127.0.0.1:8000/api/products/"] ∧
    (run net actions).requests = ["http://127.0.0.1:8000/api/products/"] ∧
    (∀ url, Event.fetch url ∉ (run net actions).pending) ∧
    (∀ e, (setState net (run net actions) e).requests = (run net actions).requests) := by
  have h : Settled (run net actions) :=
    settled_foldl net actions (mount net) (settled_mount net)
  refine ⟨(settled_mount net).2.1, h.2.1, h.2.2, fun e => ?_⟩
  rw [(settled_setState net _ e h).2.1]
  exact h.2.1.symm

/-! ## Bodies that are not arrays -/

/-- C10 (the code at the failing input): a response with status 200 whose body parses to
a JSON object is stored verbatim as `products`, and the render of the resulting state
throws (`products.map is not a function`) instead of returning a view; likewise for a
number, a string and `null`. -/
theorem render_throws_on_non_array_body :
    finalState (.resolved { status := 200, json := .ok (.object [("results", .array [])]) }) =
      { products := .object [("results", .array [])], loading := false, error := none } ∧
    App (finalState
        (.resolved { status := 200, json := .ok (.object [("results", .array [])]) })) =
      .error (.notAFunction "products.map") ∧
    App (finalState (.resolved { status := 200, json := .ok (.number 7) })) =
      .error (.notAFunction "products.map") ∧
    App (finalState (.resolved { status := 200, json := .ok (.string "ok") })) =
      .error (.notAFunction "products.map") ∧
    App (finalState (.resolved { status := 200, json := .ok .null })) =
      .error (.cannotReadProperty "map") :=
  ⟨rfl, rfl, rfl, rfl, rfl⟩

end VoidBeta
